import Mathlib

/-!
Shallow embedding of `diretta_calc.py` (Diretta DDS configuration calculator and
log-based stability analyser).  Python float arithmetic is modelled exactly over `ℚ`;
`np.std` returns the square root of the population variance, which is irrational in
general, so the statistics record carries the `variance` (its square) instead — the
source never compares the standard deviation against a threshold, it only prints it.
External collaborators (journalctl retrieval, the config-file lookup, the wall clock)
are modelled as explicit inputs of the analysis run, exactly at the interface the
program uses them.
-/

set_option maxRecDepth 10000

namespace Diretta

/-- Python `int(x)` applied to a real value truncates toward zero. -/
def pyInt (x : ℚ) : ℤ := if 0 ≤ x then ⌊x⌋ else ⌈x⌉

/-- Ethernet header size constant `DirettaCalculator.ETH_HEADER`. -/
def ETH_HEADER : ℤ := 14

/-- Protocol header size constant `DirettaCalculator.DIRETTA_HEADER`. -/
def DIRETTA_HEADER : ℤ := 2

/-- VLAN reservation constant `DirettaCalculator.VLAN_OVERHEAD`. -/
def VLAN_OVERHEAD : ℤ := 4

/-- Frame-check sequence constant `DirettaCalculator.FCS`. -/
def FCS : ℤ := 4

/-- Fixed overhead `self.overhead = ETH_HEADER + DIRETTA_HEADER + VLAN_OVERHEAD`. -/
def overhead : ℤ := ETH_HEADER + DIRETTA_HEADER + VLAN_OVERHEAD

/-- `self.available_payload = mtu - self.overhead`. -/
def available_payload (mtu : ℤ) : ℤ := mtu - overhead

/-- Result record of `DirettaCalculator.calculate_frame_params` (the dict it returns;
the derived display-only entries `sample_rate_mhz` and `cycle_time_ms` are omitted). -/
structure FrameParams where
  sample_rate : ℤ
  samples_per_frame : ℤ
  audio_bytes : ℤ
  total_frame_size : ℤ
  cycle_time_us : ℚ
  packet_rate_hz : ℚ
  bytes_per_sample : ℚ
  is_dsd : Bool
deriving DecidableEq, Repr

/-- `DirettaCalculator.calculate_frame_params(sample_rate, is_dsd)` for a calculator
built with the given `mtu`.  Python's `int( )` is `pyInt` (truncation toward zero).
The function returns `none` exactly when the Python code raises `ZeroDivisionError`:
when `samples_per_frame = 0` (computing `packet_rate_hz`) or `sample_rate = 0`
(computing `cycle_time_us`). -/
def calculate_frame_params (mtu : ℤ) (sample_rate : ℤ) (is_dsd : Bool) :
    Option FrameParams :=
  let bytes_per_sample : ℚ := if is_dsd then 0.25 else 6
  let audio_bytes_max : ℤ := pyInt ((available_payload mtu : ℚ) / 8) * 8
  let samples_per_frame : ℤ := pyInt ((audio_bytes_max : ℚ) / bytes_per_sample)
  let audio_bytes : ℤ := pyInt ((samples_per_frame : ℚ) * bytes_per_sample)
  if sample_rate = 0 ∨ samples_per_frame = 0 then none
  else some
    { sample_rate := sample_rate
      samples_per_frame := samples_per_frame
      audio_bytes := audio_bytes
      total_frame_size := ETH_HEADER + DIRETTA_HEADER + audio_bytes + FCS
      cycle_time_us := ((samples_per_frame : ℚ) / (sample_rate : ℚ)) * 1000000
      packet_rate_hz := (sample_rate : ℚ) / (samples_per_frame : ℚ)
      bytes_per_sample := bytes_per_sample
      is_dsd := is_dsd }

/-- Statistics record returned by `DirettaMonitor.analyze_stability`; `variance` is the
square of the `stdev` entry of the Python dict (see the file-level note). -/
structure Stats where
  count : ℕ
  mean : ℚ
  variance : ℚ
  min : ℚ
  max : ℚ
  range : ℚ
  q1 : ℚ
  q3 : ℚ
  iqr : ℚ
deriving DecidableEq, Repr

/-- `np.min` on a sequence (0 on the empty list, unused there by the source). -/
def listMin : List ℚ → ℚ
  | [] => 0
  | x :: xs => xs.foldl Min.min x

/-- `np.max` on a sequence (0 on the empty list, unused there by the source). -/
def listMax : List ℚ → ℚ
  | [] => 0
  | x :: xs => xs.foldl Max.max x

/-- `np.mean`: arithmetic mean (0 on the empty list, unused there by the source). -/
def mean (l : List ℚ) : ℚ := l.sum / l.length

/-- `np.percentile(values, q)` with the default linear interpolation: sort, take
`h = (n-1)·q/100`, and interpolate between the order statistics bracketing `h`. -/
def percentile (l : List ℚ) (q : ℚ) : ℚ :=
  let s := List.insertionSort (· ≤ ·) l
  let h : ℚ := ((l.length : ℚ) - 1) * q / 100
  let i : ℕ := (⌊h⌋).toNat
  match s.get? i, s.get? (i + 1) with
  | some a, some b => a + (h - i) * (b - a)
  | some a, none => a
  | none, _ => 0

/-- `DirettaMonitor.analyze_stability`: all-zero count-preserving sentinel when fewer
than two samples, otherwise mean, population variance (= `np.std` squared), min, max,
range, quartiles by linear interpolation, and `iqr = q3 - q1`. -/
def analyze_stability (values : List ℚ) : Stats :=
  let count := values.length
  if count < 2 then ⟨count, 0, 0, 0, 0, 0, 0, 0, 0⟩
  else
    let m := mean values
    let q1 := percentile values 25
    let q3 := percentile values 75
    let mn := listMin values
    let mx := listMax values
    { count := count
      mean := m
      variance := (values.map (fun x => (x - m) * (x - m))).sum / count
      min := mn
      max := mx
      range := mx - mn
      q1 := q1
      q3 := q3
      iqr := q3 - q1 }

/-- The six network-timing-jitter grades, in the order used by the report. -/
inductive JitterGrade
  | poor
  | fair
  | good
  | veryGood
  | excellent
  | exceptional
deriving DecidableEq, Repr

/-- Position of a jitter grade in the total order Poor < Fair < ... < Exceptional. -/
def JitterGrade.rank : JitterGrade → ℕ
  | .poor => 0
  | .fair => 1
  | .good => 2
  | .veryGood => 3
  | .excellent => 4
  | .exceptional => 5

/-- The cycle-time quality chain of `analyze_recent_logs` (lines 324-335): the grade
assigned from `iqr_pct` by the sequential conditionals. -/
def jitter_grade (iqr_pct : ℚ) : JitterGrade :=
  if iqr_pct < 0.1 then .exceptional
  else if iqr_pct < 0.5 then .excellent
  else if iqr_pct < 1.0 then .veryGood
  else if iqr_pct < 2.0 then .good
  else if iqr_pct < 5.0 then .fair
  else .poor

/-- The five buffer-correction grades of the source (this chain has no "Very Good"). -/
inductive BufferGrade
  | poor
  | fair
  | good
  | excellent
  | exceptional
deriving DecidableEq, Repr

/-- The buffer-correction quality chain of `analyze_recent_logs` (lines 366-375),
a joint threshold chain on the correction IQR and `abs(mean)`. -/
def buffer_grade (iqr absMean : ℚ) : BufferGrade :=
  if iqr < 0.001 ∧ absMean < 0.005 then .exceptional
  else if iqr < 0.005 ∧ absMean < 0.010 then .excellent
  else if iqr < 0.010 ∧ absMean < 0.020 then .good
  else if iqr < 0.020 then .fair
  else .poor

/-! ### The log sample extractor

`DirettaMonitor.parse_diretta_logs` runs `re.finditer` with the pattern

  `info\s+rcv\s+\d+\s+([+-]?\d+\.\d+)\s+([+-]?\d+\.\d+)\s+([+-]?\d+\.\d+)\s+cy=(\d+)`

over the whole log text.  In this pattern every greedy repetition is followed by a
character class disjoint from the repeated one, so greedy matching without
backtracking is equivalent to Python's backtracking semantics; the matcher below
implements exactly that, and `scan` reproduces `finditer`: try a match at every
position from the left, and resume after the end of each match found.  The
`try/except ValueError` around the `float( )` conversions in the source is dead
(every captured group is a valid float literal), so a match directly yields its
four numeric fields. -/

/-- Whitespace class of Python's `\s` (ASCII part; the log text is ASCII). -/
def isWS (c : Char) : Bool :=
  c = ' ' || c = '\t' || c = '\n' || c = '\r' || c = '\x0b' || c = '\x0c'

/-- Digit class of Python's `\d` (ASCII). -/
def isDigitC (c : Char) : Bool := '0' ≤ c && c ≤ '9'

/-- Match a literal token at the head of the input, returning the rest. -/
def lit : List Char → List Char → Option (List Char)
  | [], s => some s
  | _ :: _, [] => none
  | a :: as, b :: bs => if a = b then lit as bs else none

/-- Match `\s+`: at least one whitespace character, greedily. -/
def ws1 : List Char → Option (List Char)
  | [] => none
  | c :: rest => if isWS c then some (rest.dropWhile isWS) else none

/-- Numeric value of a digit string. -/
def digitsToNat (ds : List Char) : ℕ :=
  ds.foldl (fun n c => 10 * n + (c.toNat - 48)) 0

/-- Match `(\d+)`: at least one digit, greedily, returning its value. -/
def digits1 (s : List Char) : Option (ℕ × List Char) :=
  let ds := s.takeWhile isDigitC
  if ds.isEmpty then none
  else some (digitsToNat ds, s.dropWhile isDigitC)

/-- Consume an optional `[+-]?` sign, returning the sign value and the rest. -/
def pSign : List Char → ℚ × List Char
  | [] => (1, [])
  | c :: r =>
    if c = '+' then (1, r) else if c = '-' then (-1, r) else (1, c :: r)

/-- Match `\.`: a literal dot. -/
def pDot : List Char → Option (List Char)
  | [] => none
  | c :: r => if c = '.' then some r else none

/-- Match `([+-]?\d+\.\d+)`: optional sign, integer part, a dot, fractional part. -/
def pDecimal (s : List Char) : Option (ℚ × List Char) :=
  let sg := pSign s
  match digits1 sg.2 with
  | none => none
  | some (ip, s2) =>
    match pDot s2 with
    | none => none
    | some s3 =>
      let fs := s3.takeWhile isDigitC
      if fs.isEmpty then none
      else some (sg.1 * ((ip : ℚ) + (digitsToNat fs : ℚ) / 10 ^ fs.length),
                 s3.dropWhile isDigitC)

/-- The literal marker token `info`. -/
def infoTok : List Char := ['i', 'n', 'f', 'o']

/-- The literal token `rcv`. -/
def rcvTok : List Char := ['r', 'c', 'v']

/-- The literal token `cy=`. -/
def cyTok : List Char := ['c', 'y', '=']

/-- Tail of the pattern from the third captured number on:
`([+-]?\d+\.\d+)\s+cy=(\d+)`, with the two already-captured numbers passed along. -/
def matchFrom3rd (d1 d2 : ℚ) (s : List Char) : Option ((ℚ × ℚ × ℚ × ℕ) × List Char) := do
  let (d3, s1) ← pDecimal s
  let s2 ← ws1 s1
  let s3 ← lit cyTok s2
  let (cy, s4) ← digits1 s3
  return ((d1, d2, d3, cy), s4)

/-- Attempt to match the whole log-line pattern anchored at the head of the input;
on success return the four captured fields (diff, avg, correction, cycle-picoseconds)
and the input remaining after the match. -/
def matchAt (s : List Char) : Option ((ℚ × ℚ × ℚ × ℕ) × List Char) := do
  let s1 ← lit infoTok s
  let s2 ← ws1 s1
  let s3 ← lit rcvTok s2
  let s4 ← ws1 s3
  let (_, s5) ← digits1 s4
  let s6 ← ws1 s5
  let (d1, s7) ← pDecimal s6
  let s8 ← ws1 s7
  let (d2, s9) ← pDecimal s8
  let s10 ← ws1 s9
  matchFrom3rd d1 d2 s10

theorem lit_some_length {p s r : List Char} (h : lit p s = some r) :
    r.length + p.length = s.length := by
  induction p generalizing s with
  | nil => simp [lit] at h; simp [h]
  | cons a as ih =>
    cases s with
    | nil => simp [lit] at h
    | cons b bs =>
      simp only [lit] at h
      split at h
      · have := ih h
        simp only [List.length_cons]
        omega
      · exact absurd h (by simp)

theorem ws1_some_length {s r : List Char} (h : ws1 s = some r) :
    r.length < s.length := by
  cases s with
  | nil => simp [ws1] at h
  | cons c t =>
    simp only [ws1] at h
    split at h
    · cases h
      have : (t.dropWhile isWS).length ≤ t.length :=
        (List.dropWhile_sublist _).length_le
      simp only [List.length_cons]
      omega
    · exact absurd h (by simp)

theorem digits1_some_length {s : List Char} {n : ℕ} {r : List Char}
    (h : digits1 s = some (n, r)) : r.length < s.length := by
  cases s with
  | nil => simp [digits1, List.takeWhile] at h
  | cons c t =>
    simp only [digits1, List.takeWhile, List.dropWhile] at h
    cases hd : isDigitC c with
    | false => simp [hd] at h
    | true =>
      simp only [hd, List.isEmpty_cons] at h
      cases h
      have : (t.dropWhile isDigitC).length ≤ t.length :=
        (List.dropWhile_sublist _).length_le
      simp only [List.length_cons]
      omega

theorem pSign_length (s : List Char) : (pSign s).2.length ≤ s.length := by
  cases s with
  | nil => simp [pSign]
  | cons c t =>
    simp only [pSign]
    split
    · simp
    · split <;> simp

theorem pDot_some_length {s r : List Char} (h : pDot s = some r) :
    r.length < s.length := by
  cases s with
  | nil => simp [pDot] at h
  | cons c t =>
    simp only [pDot] at h
    split at h
    · cases h; simp
    · exact absurd h (by simp)

theorem pDecimal_some_length {s : List Char} {v : ℚ} {r : List Char}
    (h : pDecimal s = some (v, r)) : r.length < s.length := by
  simp only [pDecimal] at h
  cases h1 : digits1 (pSign s).2 with
  | none => simp only [h1] at h; exact absurd h (by simp)
  | some x =>
    obtain ⟨ip, s2⟩ := x
    simp only [h1] at h
    cases h2 : pDot s2 with
    | none => simp only [h2] at h; exact absurd h (by simp)
    | some s3 =>
      simp only [h2] at h
      split at h
      · exact absurd h (by simp)
      · simp only [Option.some.injEq, Prod.mk.injEq] at h
        obtain ⟨-, hr⟩ := h
        subst hr
        have h3 : (s3.dropWhile isDigitC).length ≤ s3.length :=
          (List.dropWhile_sublist _).length_le
        have h4 := pDot_some_length h2
        have h5 := digits1_some_length h1
        have h6 := pSign_length s
        omega

theorem matchFrom3rd_some_length {d1 d2 : ℚ} {s : List Char} {m : ℚ × ℚ × ℚ × ℕ}
    {r : List Char} (h : matchFrom3rd d1 d2 s = some (m, r)) : r.length < s.length := by
  simp only [matchFrom3rd, bind, Option.bind_eq_some, pure, Option.some.injEq,
    Prod.mk.injEq] at h
  obtain ⟨⟨d3, s1⟩, h1, s2, h2, s3, h3, ⟨cy, s4⟩, h4, hfin⟩ := h
  obtain ⟨-, hr⟩ := hfin
  have e1 := pDecimal_some_length h1
  have e2 := ws1_some_length h2
  have e3 := lit_some_length h3
  have e4 := digits1_some_length h4
  subst hr
  simp only [cyTok, List.length_cons, List.length_nil] at e3
  dsimp only at *
  omega

theorem matchAt_some_length {s : List Char} {m : ℚ × ℚ × ℚ × ℕ} {r : List Char}
    (h : matchAt s = some (m, r)) : r.length < s.length := by
  simp only [matchAt, bind, Option.bind_eq_some, pure, Option.some.injEq,
    Prod.mk.injEq] at h
  obtain ⟨s1, h1, s2, h2, s3, h3, s4, h4, ⟨n0, s5⟩, h5, s6, h6, ⟨d1, s7⟩, h7,
    s8, h8, ⟨d2, s9⟩, h9, s10, h10, h11⟩ := h
  have e1 := lit_some_length h1
  have e2 := ws1_some_length h2
  have e3 := lit_some_length h3
  have e4 := ws1_some_length h4
  have e5 := digits1_some_length h5
  have e6 := ws1_some_length h6
  have e7 := pDecimal_some_length h7
  have e8 := ws1_some_length h8
  have e9 := pDecimal_some_length h9
  have e10 := ws1_some_length h10
  have e11 := matchFrom3rd_some_length h11
  simp only [infoTok, rcvTok, List.length_cons, List.length_nil] at e1 e3
  dsimp only at *
  omega

/-- The scanning loop of `re.finditer`: attempt a match at every position from the
left; each match found is reported and scanning resumes after its end.  The loop is
written with an explicit fuel so that it is structurally recursive; every match
consumes at least one character (`matchAt_some_length`), so a fuel equal to the input
length never runs out — `scanFuel_congr` below makes this precise. -/
def scanFuel : ℕ → List Char → List (ℚ × ℚ × ℚ × ℕ)
  | 0, _ => []
  | _, [] => []
  | fuel + 1, c :: rest =>
    match matchAt (c :: rest) with
    | some (m, r) => m :: scanFuel fuel r
    | none => scanFuel fuel rest

theorem scanFuel_congr {f g : ℕ} {s : List Char} (hf : s.length ≤ f)
    (hg : s.length ≤ g) : scanFuel f s = scanFuel g s := by
  induction f using Nat.strong_induction_on generalizing g s with
  | _ f ih =>
    cases s with
    | nil => cases f <;> cases g <;> simp [scanFuel]
    | cons c rest =>
      simp only [List.length_cons] at hf hg
      cases f with
      | zero => omega
      | succ f =>
        cases g with
        | zero => omega
        | succ g =>
          cases hm : matchAt (c :: rest) with
          | some p =>
            obtain ⟨m, r⟩ := p
            have hr := matchAt_some_length hm
            simp only [List.length_cons] at hr
            simp only [scanFuel, hm]
            exact congrArg _ (ih f (by omega) (s := r) (g := g) (by omega) (by omega))
          | none =>
            simp only [scanFuel, hm]
            exact ih f (by omega) (s := rest) (g := g) (by omega) (by omega)

/-- The `finditer` scan over the whole input. -/
def scan (s : List Char) : List (ℚ × ℚ × ℚ × ℕ) := scanFuel s.length s

theorem scan_nil : scan [] = [] := rfl

theorem scan_cons_none {c : Char} {s : List Char} (h : matchAt (c :: s) = none) :
    scan (c :: s) = scan s := by
  simp [scan, scanFuel, h]

theorem scan_cons_some {c : Char} {s : List Char} {m : ℚ × ℚ × ℚ × ℕ}
    {r : List Char} (h : matchAt (c :: s) = some (m, r)) :
    scan (c :: s) = m :: scan r := by
  have hr := matchAt_some_length h
  simp only [List.length_cons] at hr
  simp only [scan, List.length_cons, scanFuel, h]
  exact congrArg _ (scanFuel_congr (by omega) (by omega))

/-- The four index-aligned sample sequences built by `parse_diretta_logs`. -/
structure ParsedData where
  buffer_diff : List ℚ
  buffer_avg : List ℚ
  correction : List ℚ
  cycle_times : List ℚ
deriving DecidableEq, Repr

/-- `DirettaMonitor.parse_diretta_logs`: run the pattern over the whole text and
collect the four captured fields of every match, converting the cycle time from
picoseconds to microseconds. -/
def parse_diretta_logs (logs : String) : ParsedData :=
  let ms := scan logs.toList
  { buffer_diff := ms.map (fun m => m.1)
    buffer_avg := ms.map (fun m => m.2.1)
    correction := ms.map (fun m => m.2.2.1)
    cycle_times := ms.map (fun m => (m.2.2.2 : ℚ) / 1000000) }

/-! ### The stability report builder

`DirettaMonitor.analyze_recent_logs` builds the report as an ordered list of lines.
The exact textual layout is not part of the contract, so the report is modelled as an
ordered list of structured items, one item per `report.append` (the 35 constant
appends of the interpretation guide, lines 225-259, are consolidated into the single
constant item `guide`, and each multi-line section body into one item carrying the
values the section prints).  External effects are explicit inputs: the journalctl
text (empty on retrieval failure, as the source catches `CalledProcessError`), the
result of the `_detect_cycle_time` config lookup, and the `datetime.now()` reading
that the source interpolates into the `Generated:` line. -/

/-- One structural item of the report, in source order. -/
inductive ReportItem
  | guide
  | analysisHeader (num_lines : ℕ)
  | service (name : String)
  | generated (now : String)
  | expectedCycleResolved (ct : ℚ)
  | expectedCycleWillDetect
  | analyzing
  | noLogs (name : String)
  | logsCaptured
  | unparseable
  | parsedCount (n : ℕ)
  | detectedCycle (ct : ℚ)
  | jitterAssessment (g : JitterGrade) (stats : Stats) (ct iqr_pct range_pct : ℚ)
  | dashLine
  | noCyData
  | blank
  | bufferAssessment (g : BufferGrade) (stats : Stats)
  | meanNoteFilling
  | meanNoteDraining
  | meanNoteBalanced
  | iqrNoteSync
  | iqrNoteDrift
  | bufferDiffStats (stats : Stats)
  | bufferInsufficient (found : ℕ)
  | finalLine
deriving DecidableEq, Repr

/-- Python truthiness of `self.cycle_time_us` (a float or `None`): falsy iff `None`
or `0.0`. -/
def optFalsy : Option ℚ → Bool
  | none => true
  | some v => v == 0

/-- Python `if not parsed_data:` tests the truthiness of the dict returned by
`parse_diretta_logs`.  That dict always has its four keys, so it is always truthy
and the test is constantly false: the "Could not parse log data" early return of
lines 295-297 is unreachable. -/
def parsed_data_falsy (_ : ParsedData) : Bool := false

/-- The value of `self.cycle_time_us` right after construction and the config lookup
(lines 217-219 and 269-270): the explicit argument if one was given (the source tests
`is None`, so an explicit `0.0` suppresses the config lookup), otherwise the config
result. -/
def initial_cycle_time (explicitCt configCt : Option ℚ) : Option ℚ :=
  match explicitCt with
  | none => configCt
  | some v => some v

/-- The value of `self.cycle_time_us` after the auto-detection step (lines 307-311):
if the stored value is falsy and cycle-time samples exist, it becomes their mean. -/
def resolved_cycle_time (explicitCt configCt : Option ℚ) (cycle_times : List ℚ) :
    Option ℚ :=
  let ct := initial_cycle_time explicitCt configCt
  if optFalsy ct ∧ ¬cycle_times.isEmpty then some (mean cycle_times) else ct

/-- Section 1 of the report, "NETWORK TIMING JITTER" (lines 313-354): when samples
exist and the resolved cycle time is truthy, the percentage metrics and the quality
chain; with no samples, the "No cy= data" line. -/
def jitter_section (cycle_times : List ℚ) (ct : Option ℚ) : List ReportItem :=
  if cycle_times.isEmpty then [.noCyData]
  else
    let stats := analyze_stability cycle_times
    (if optFalsy ct then []
     else
       let c := ct.getD 0
       let iqr_pct := stats.iqr / c * 100
       let range_pct := stats.range / c * 100
       [.jitterAssessment (jitter_grade iqr_pct) stats c iqr_pct range_pct])
    ++ [.dashLine]

/-- Section 2 of the report, "BUFFER MANAGEMENT STABILITY" (lines 358-420): graded
only when the correction sequence is non-empty and has at least 10 samples, together
with the interpretive notes; otherwise the "Insufficient data" line reporting the
number of samples found. -/
def buffer_section (correction buffer_diff : List ℚ) : List ReportItem :=
  if ¬correction.isEmpty ∧ 10 ≤ correction.length then
    let stats := analyze_stability correction
    let absMean := |stats.mean|
    [.bufferAssessment (buffer_grade stats.iqr absMean) stats]
    ++ (if 0.015 < absMean then
          if 0 < stats.mean then [.meanNoteFilling] else [.meanNoteDraining]
        else [.meanNoteBalanced])
    ++ (if stats.iqr < 0.005 then [.iqrNoteSync]
        else if 0.020 < stats.iqr then [.iqrNoteDrift]
        else [])
    ++ (if ¬buffer_diff.isEmpty then
          [.bufferDiffStats (analyze_stability buffer_diff)]
        else [])
  else [.bufferInsufficient correction.length]

/-- The inputs of one analysis run: the two constructor arguments, the caller's line
count, and the three external effects (config lookup, wall clock, retrieved logs). -/
structure RunInput where
  service_name : String
  num_lines : ℕ
  cycle_time_arg : Option ℚ
  config_cycle_time : Option ℚ
  now : String
  logs : String
deriving DecidableEq, Repr

/-- `DirettaMonitor.analyze_recent_logs`, line by line: header, cycle-time
resolution, retrieval and extraction outcomes, then the two analysis sections. -/
def analyze_recent_logs (inp : RunInput) : List ReportItem :=
  let ct0 := initial_cycle_time inp.cycle_time_arg inp.config_cycle_time
  let head : List ReportItem :=
    [.guide, .analysisHeader inp.num_lines, .service inp.service_name,
     .generated inp.now]
    ++ (if optFalsy ct0 then [.expectedCycleWillDetect]
        else [.expectedCycleResolved (ct0.getD 0)])
    ++ [.analyzing]
  if inp.logs.isEmpty then head ++ [.noLogs inp.service_name]
  else
    let parsed := parse_diretta_logs inp.logs
    if parsed_data_falsy parsed then head ++ [.logsCaptured, .unparseable]
    else
      let cycle_times := parsed.cycle_times
      let ct1 := resolved_cycle_time inp.cycle_time_arg inp.config_cycle_time
        cycle_times
      head ++ [.logsCaptured, .parsedCount cycle_times.length]
      ++ (if optFalsy ct0 ∧ ¬cycle_times.isEmpty then [.detectedCycle (ct1.getD 0)]
          else [])
      ++ jitter_section cycle_times ct1
      ++ [.blank]
      ++ buffer_section parsed.correction parsed.buffer_diff
      ++ [.finalLine]

/-- Whether a report item is the `Generated:` timestamp line. -/
def isGenerated : ReportItem → Bool
  | .generated _ => true
  | _ => false

/-- A report with its `Generated:` timestamp line removed. -/
def without_generated (r : List ReportItem) : List ReportItem :=
  r.filter (fun i => !isGenerated i)

/-! ### Claim theorems -/

/-- C1: the Statistics Engine half of the claim holds — `analyze_stability` returns
the all-zero, count-preserving sentinel for fewer than two samples — but the
downstream classifier does not skip grading on it: a run whose logs contain exactly
one matching line (one cycle-time sample, count 1 < 2) and whose reference cycle
time is the explicit 1920 μs reports the jitter grade "Exceptional", because the
sentinel's IQR of 0 makes `iqr_pct = 0 < 0.1`.  This is the failing input showing
the code violates the claim's second half. -/
theorem C1_sentinel_but_single_sample_graded_exceptional :
    (∀ l : List ℚ, l.length < 2 →
      analyze_stability l = ⟨l.length, 0, 0, 0, 0, 0, 0, 0, 0⟩) ∧
    ReportItem.jitterAssessment .exceptional ⟨1, 0, 0, 0, 0, 0, 0, 0, 0⟩ 1920 0 0 ∈
      analyze_recent_logs ⟨"diretta_sync_host", 1000, some 1920, none, "now",
        "info rcv 2 -0.0110 -0.0110  0.0019 cy=1920000000"⟩ := by
  constructor
  · intro l h
    simp [analyze_stability, h]
  · with_unfolding_all decide

/-- C1 witness: the sentinel half applied at the concrete one-sample sequence. -/
theorem C1_sentinel_but_single_sample_graded_exceptional_witness :
    analyze_stability [1920] = ⟨1, 0, 0, 0, 0, 0, 0, 0, 0⟩ :=
  C1_sentinel_but_single_sample_graded_exceptional.1 [1920] (by decide)

/-- C2: the claim fails on the code.  `parse_diretta_logs` always returns a four-key
dict, which is always truthy, so the `if not parsed_data` guard of lines 295-297 is
constantly false and the "unparseable" early return is dead: on non-empty log text
with zero grammar matches ("hello") the report does not terminate early — it
continues with `parsedCount 0`, the "No cy= data" line and the
"insufficient data (found 0)" line, and no `unparseable` item appears. -/
theorem C2_unparseable_outcome_never_produced :
    (∀ d : ParsedData, parsed_data_falsy d = false) ∧
    parse_diretta_logs "hello" = ⟨[], [], [], []⟩ ∧
    analyze_recent_logs ⟨"diretta_sync_host", 1000, none, none, "now", "hello"⟩ =
      [.guide, .analysisHeader 1000, .service "diretta_sync_host", .generated "now",
       .expectedCycleWillDetect, .analyzing, .logsCaptured, .parsedCount 0,
       .noCyData, .blank, .bufferInsufficient 0, .finalLine] := by
  refine ⟨fun d => rfl, ?_, ?_⟩ <;> with_unfolding_all decide

/-- C7 counterexample: a config lookup can yield `CycleTime = 0` (the grammar
`CycleTime\s*=\s*(\d+)` matches a zero), and with cycle-time data present the zero
is falsy, so the inferred mean is used instead of the config value — the config
value is not "used" as the claim states. -/
theorem C7_counterexample_config_zero_overridden :
    resolved_cycle_time none (some 0) [1000] = some 1000 ∧
    resolved_cycle_time none (some 0) [1000] ≠ some 0 := by
  with_unfolding_all decide

/-- C7 (amended): the resolution precedence explicit > persisted config > inferred
holds with the config step qualified: an explicit positive cycle time is used
unchanged; otherwise a *non-zero* config value is used (a config value of 0 is falsy
and falls through to inference); otherwise, with data present, the mean of the
extracted cycle times is used. -/
theorem C7_resolution_precedence :
    (∀ e : ℚ, 0 < e → ∀ (cfg : Option ℚ) (l : List ℚ),
        resolved_cycle_time (some e) cfg l = some e) ∧
    (∀ v : ℚ, v ≠ 0 → ∀ l : List ℚ, resolved_cycle_time none (some v) l = some v) ∧
    (∀ l : List ℚ, l ≠ [] → resolved_cycle_time none none l = some (mean l)) := by
  refine ⟨?_, ?_, ?_⟩
  · intro e he cfg l
    simp [resolved_cycle_time, initial_cycle_time, optFalsy, ne_of_gt he]
  · intro v hv l
    simp [resolved_cycle_time, initial_cycle_time, optFalsy, hv]
  · intro l hl
    simp [resolved_cycle_time, initial_cycle_time, optFalsy, hl]

/-- C7 witness: the three precedence steps applied at concrete inputs. -/
theorem C7_resolution_precedence_witness :
    resolved_cycle_time (some 1920) (some 5) [7] = some 1920 ∧
    resolved_cycle_time none (some 1500) [7] = some 1500 ∧
    resolved_cycle_time none none [7] = some (mean [7]) :=
  ⟨C7_resolution_precedence.1 1920 (by decide) (some 5) [7],
   C7_resolution_precedence.2.1 1500 (by decide) [7],
   C7_resolution_precedence.2.2 [7] (by decide)⟩

/-- C9 counterexample: two runs with identical service identity, line count,
explicit reference cycle time, config-lookup result and retrieved log text still
produce different reports when the wall clock differs, because `datetime.now()` is
interpolated into the `Generated:` line — the report is not a pure function of the
inputs the claim lists. -/
theorem C9_counterexample_clock_reaches_output :
    analyze_recent_logs ⟨"diretta_sync_host", 1000, none, none, "2025-01-01", "hello"⟩ ≠
    analyze_recent_logs ⟨"diretta_sync_host", 1000, none, none, "2025-01-02", "hello"⟩ := by
  with_unfolding_all decide

/-- C9 (amended): the report depends on the listed inputs, the config-lookup result
and the retrieved log text *plus the clock reading*, and on the clock only through
the `Generated:` line: with the `generated` item removed, reports of two runs that
agree on everything except the clock are identical. -/
theorem C9_pure_function_modulo_clock (s : String) (n : ℕ) (e c : Option ℚ)
    (now1 now2 logs : String) :
    without_generated (analyze_recent_logs ⟨s, n, e, c, now1, logs⟩) =
    without_generated (analyze_recent_logs ⟨s, n, e, c, now2, logs⟩) := by
  unfold analyze_recent_logs
  by_cases hL : logs.isEmpty <;>
    simp [hL, without_generated, List.filter_append, List.filter, isGenerated,
      parsed_data_falsy]

/-- C10: the extractor runs its pattern over the whole text and `\s+` also matches
newlines: the two lines "info rcv 2 -0.0110 -0.0110 0.0019" and "cy=3185960450"
yield no sample on their own, yet their two-line concatenation yields exactly one
sample, matched across the newline (and the embedded whitespace class accepts the
newline character). -/
theorem C10_match_spans_lines :
    (parse_diretta_logs "info rcv 2 -0.0110 -0.0110 0.0019\ncy=3185960450").buffer_diff.length = 1 ∧
    (parse_diretta_logs "info rcv 2 -0.0110 -0.0110 0.0019\ncy=3185960450").buffer_avg.length = 1 ∧
    (parse_diretta_logs "info rcv 2 -0.0110 -0.0110 0.0019\ncy=3185960450").correction.length = 1 ∧
    (parse_diretta_logs "info rcv 2 -0.0110 -0.0110 0.0019\ncy=3185960450").cycle_times.length = 1 ∧
    parse_diretta_logs "info rcv 2 -0.0110 -0.0110 0.0019" = ⟨[], [], [], []⟩ ∧
    parse_diretta_logs "cy=3185960450" = ⟨[], [], [], []⟩ ∧
    isWS '\n' = true := by
  refine ⟨?_, ?_, ?_, ?_, ?_, ?_, rfl⟩ <;> with_unfolding_all decide

/-- C3: the jitter grade the report applies is `jitter_grade` of
`iqr_pct = iqr / reference * 100` alone (first conjunct: the graded section is
exactly that application), `jitter_grade` realises the fixed ascending threshold
table (second conjunct), and it is monotone: a smaller `iqr_pct` never gets a lower
grade in the total order Poor < Fair < Good < Very Good < Excellent < Exceptional
(third conjunct). -/
theorem C3_jitter_grade_of_iqr_pct_monotone :
    (∀ (l : List ℚ) (c : ℚ), ¬l.isEmpty → c ≠ 0 →
      jitter_section l (some c) =
        [.jitterAssessment (jitter_grade ((analyze_stability l).iqr / c * 100))
          (analyze_stability l) c ((analyze_stability l).iqr / c * 100)
          ((analyze_stability l).range / c * 100), .dashLine]) ∧
    (∀ x : ℚ,
      (jitter_grade x = .exceptional ↔ x < 0.1) ∧
      (jitter_grade x = .excellent ↔ 0.1 ≤ x ∧ x < 0.5) ∧
      (jitter_grade x = .veryGood ↔ 0.5 ≤ x ∧ x < 1.0) ∧
      (jitter_grade x = .good ↔ 1.0 ≤ x ∧ x < 2.0) ∧
      (jitter_grade x = .fair ↔ 2.0 ≤ x ∧ x < 5.0) ∧
      (jitter_grade x = .poor ↔ 5.0 ≤ x)) ∧
    (∀ x y : ℚ, x ≤ y → (jitter_grade y).rank ≤ (jitter_grade x).rank) := by
  refine ⟨?_, ?_, ?_⟩
  · intro l c hl hc
    simp [jitter_section, hl, optFalsy, hc]
  · intro x
    unfold jitter_grade
    split_ifs with h1 h2 h3 h4 h5 <;>
      refine ⟨?_, ?_, ?_, ?_, ?_, ?_⟩ <;> simp <;>
        first
          | linarith
          | (constructor <;> linarith)
          | (intro hA; linarith)
  · intro x y hxy
    unfold jitter_grade
    split_ifs <;> simp [JitterGrade.rank] <;> linarith

/-- C3 witness: monotonicity and the graded section at concrete inputs. -/
theorem C3_jitter_grade_of_iqr_pct_monotone_witness :
    jitter_section [3, 5] (some 1920) =
      [.jitterAssessment (jitter_grade ((analyze_stability [3, 5]).iqr / 1920 * 100))
        (analyze_stability [3, 5]) 1920 ((analyze_stability [3, 5]).iqr / 1920 * 100)
        ((analyze_stability [3, 5]).range / 1920 * 100), .dashLine] ∧
    (jitter_grade 0 = .exceptional ↔ (0 : ℚ) < 0.1) ∧
    (jitter_grade 3).rank ≤ (jitter_grade 0).rank :=
  ⟨C3_jitter_grade_of_iqr_pct_monotone.1 [3, 5] 1920 (by decide) (by decide),
   (C3_jitter_grade_of_iqr_pct_monotone.2.1 0).1,
   C3_jitter_grade_of_iqr_pct_monotone.2.2 0 3 (by decide)⟩

/-- The 12-sample end-to-end example of the spec: mean 0.002 and IQR 0.0008. -/
def exampleCorrections12 : List ℚ :=
  [0.0016, 0.0016, 0.0016, 0.0016, 0.0016, 0.0016,
   0.0024, 0.0024, 0.0024, 0.0024, 0.0024, 0.0024]

/-- The 8-sample variant of the same example: same mean and IQR, too few samples. -/
def exampleCorrections8 : List ℚ :=
  [0.0016, 0.0016, 0.0016, 0.0016, 0.0024, 0.0024, 0.0024, 0.0024]

/-- C6: the buffer correction grade is assigned only with at least 10 samples —
below that the section is the single "insufficient data" item reporting the count
found — and when graded, the leading assessment item carries
`buffer_grade iqr |mean|`, the joint threshold chain of the source.  In particular
any 12-sample correction sequence with mean 0.002 and IQR 0.0008 is graded
Exceptional, while fewer than 10 samples yield "insufficient data" whatever their
statistics. -/
theorem C6_buffer_grading_thresholds :
    (∀ l d : List ℚ, l.length < 10 →
      buffer_section l d = [.bufferInsufficient l.length]) ∧
    (∀ l d : List ℚ, 10 ≤ l.length →
      (buffer_section l d).head? = some (.bufferAssessment
        (buffer_grade (analyze_stability l).iqr |(analyze_stability l).mean|)
        (analyze_stability l))) ∧
    (∀ l d : List ℚ, 10 ≤ l.length → (analyze_stability l).mean = 0.002 →
      (analyze_stability l).iqr = 0.0008 →
      (buffer_section l d).head? =
        some (.bufferAssessment .exceptional (analyze_stability l))) := by
  have hgrade : ∀ l d : List ℚ, 10 ≤ l.length →
      (buffer_section l d).head? = some (.bufferAssessment
        (buffer_grade (analyze_stability l).iqr |(analyze_stability l).mean|)
        (analyze_stability l)) := by
    intro l d hl
    have hne : ¬l.isEmpty := by
      cases l with
      | nil => simp at hl
      | cons a t => simp
    simp [buffer_section, hne, hl]
  refine ⟨?_, hgrade, ?_⟩
  · intro l d hl
    have : ¬(¬l.isEmpty ∧ 10 ≤ l.length) := by
      intro h
      omega
    simp [buffer_section, this]
    exact fun _ => hl
  · intro l d hl hm hi
    rw [hgrade l d hl, hm, hi]
    have : buffer_grade 0.0008 |(0.002 : ℚ)| = .exceptional := by
      rw [abs_of_pos (by norm_num)]
      unfold buffer_grade
      rw [if_pos (by norm_num)]
    rw [this]

/-- C6 witness: the two end-to-end examples of the spec, at concrete sample lists
with mean 0.002 and IQR 0.0008. -/
theorem C6_buffer_grading_thresholds_witness :
    (buffer_section exampleCorrections12 []).head? =
      some (.bufferAssessment .exceptional (analyze_stability exampleCorrections12)) ∧
    buffer_section exampleCorrections8 [] = [.bufferInsufficient 8] :=
  ⟨C6_buffer_grading_thresholds.2.2 exampleCorrections12 [] (by decide)
      (by with_unfolding_all decide) (by with_unfolding_all decide),
   C6_buffer_grading_thresholds.1 exampleCorrections8 [] (by decide)⟩

/-- Python truncation toward zero agrees with floor on nonnegative values. -/
theorem pyInt_eq_floor {x : ℚ} (h : 0 ≤ x) : pyInt x = ⌊x⌋ := if_pos h

/-- With at least 8 bytes of payload and a per-sample size of at most 6 bytes, at
least one sample fits in a frame. -/
theorem one_le_spf {A : ℤ} (hA : 8 ≤ A) {bps : ℚ} (hb0 : 0 < bps) (hb6 : bps ≤ 6) :
    1 ≤ pyInt (((pyInt ((A : ℚ) / 8) * 8 : ℤ) : ℚ) / bps) := by
  have h8 : (8 : ℚ) ≤ (A : ℚ) := by exact_mod_cast hA
  have hdiv0 : (0 : ℚ) ≤ (A : ℚ) / 8 := by positivity
  rw [pyInt_eq_floor hdiv0]
  have h1F : (1 : ℤ) ≤ ⌊(A : ℚ) / 8⌋ := by
    rw [Int.le_floor, le_div_iff₀ (by norm_num : (0 : ℚ) < 8)]
    push_cast
    linarith
  have hM : (8 : ℤ) ≤ ⌊(A : ℚ) / 8⌋ * 8 := by omega
  have hMq : (8 : ℚ) ≤ ((⌊(A : ℚ) / 8⌋ * 8 : ℤ) : ℚ) := by exact_mod_cast hM
  have houter : (0 : ℚ) ≤ ((⌊(A : ℚ) / 8⌋ * 8 : ℤ) : ℚ) / bps := by positivity
  rw [pyInt_eq_floor houter, Int.le_floor]
  rw [show ((1 : ℤ) : ℚ) = 1 from rfl, one_le_div hb0]
  linarith

/-- C4 (amended): for every mtu of at least 28 bytes (so that at least one sample
fits and Python's `int` truncation coincides with floor) and positive sample rate,
`calculate_frame_params` returns exactly the claimed record: payload `mtu - 20`,
bytes-per-sample 0.25 (DSD) or 6 (PCM), `samples_per_frame` from the
8-byte-aligned payload, `audio_bytes` its floored byte count, the cycle time and
packet rate quotients, and `total_frame_size = 14 + 2 + audio_bytes + 4`. -/
theorem C4_frame_parameter_formulas (mtu sample_rate : ℤ) (hm : 28 ≤ mtu)
    (hs : 0 < sample_rate) (is_dsd : Bool) :
    ∃ p : FrameParams, calculate_frame_params mtu sample_rate is_dsd = some p ∧
      available_payload mtu = mtu - 20 ∧
      p.bytes_per_sample = (if is_dsd then (0.25 : ℚ) else 6) ∧
      p.samples_per_frame =
        ⌊((⌊((mtu - 20 : ℤ) : ℚ) / 8⌋ * 8 : ℤ) : ℚ) / (if is_dsd then (0.25 : ℚ) else 6)⌋ ∧
      p.audio_bytes = ⌊(p.samples_per_frame : ℚ) * (if is_dsd then (0.25 : ℚ) else 6)⌋ ∧
      p.cycle_time_us = (p.samples_per_frame : ℚ) / (sample_rate : ℚ) * 1000000 ∧
      p.packet_rate_hz = (sample_rate : ℚ) / (p.samples_per_frame : ℚ) ∧
      p.total_frame_size = 14 + 2 + p.audio_bytes + 4 := by
  have hov : available_payload mtu = mtu - 20 := by
    unfold available_payload overhead ETH_HEADER DIRETTA_HEADER VLAN_OVERHEAD
    ring
  have hbps0 : (0 : ℚ) < (if is_dsd then (0.25 : ℚ) else 6) := by
    cases is_dsd <;> norm_num
  have hbps6 : (if is_dsd then (0.25 : ℚ) else 6) ≤ 6 := by
    cases is_dsd <;> norm_num
  have hA : (8 : ℤ) ≤ mtu - 20 := by omega
  have hspf := one_le_spf hA hbps0 hbps6
  simp only [calculate_frame_params, hov]
  rw [if_neg (by push_neg; exact ⟨by omega, by omega⟩)]
  have hq8 : (0 : ℚ) ≤ ((mtu - 20 : ℤ) : ℚ) / 8 := by
    have : (8 : ℚ) ≤ ((mtu - 20 : ℤ) : ℚ) := by exact_mod_cast hA
    positivity
  refine ⟨_, rfl, trivial, rfl, ?_, ?_, rfl, rfl, ?_⟩
  · dsimp only
    rw [pyInt_eq_floor hq8]
    have h1F : (1 : ℤ) ≤ ⌊((mtu - 20 : ℤ) : ℚ) / 8⌋ := by
      rw [Int.le_floor, le_div_iff₀ (by norm_num : (0 : ℚ) < 8)]
      push_cast
      have : (8 : ℚ) ≤ ((mtu - 20 : ℤ) : ℚ) := by exact_mod_cast hA
      push_cast at this
      linarith
    have houter : (0 : ℚ) ≤ ((⌊((mtu - 20 : ℤ) : ℚ) / 8⌋ * 8 : ℤ) : ℚ) /
        (if is_dsd then (0.25 : ℚ) else 6) := by
      have : (0 : ℤ) ≤ ⌊((mtu - 20 : ℤ) : ℚ) / 8⌋ * 8 := by omega
      have hq : (0 : ℚ) ≤ ((⌊((mtu - 20 : ℤ) : ℚ) / 8⌋ * 8 : ℤ) : ℚ) := by
        exact_mod_cast this
      positivity
    rw [pyInt_eq_floor houter]
  · dsimp only
    have hsp : (0 : ℤ) ≤ pyInt (((pyInt (((mtu - 20 : ℤ) : ℚ) / 8) * 8 : ℤ) : ℚ) /
        (if is_dsd then (0.25 : ℚ) else 6)) := by omega
    have hsq : (0 : ℚ) ≤ ((pyInt (((pyInt (((mtu - 20 : ℤ) : ℚ) / 8) * 8 : ℤ) : ℚ) /
        (if is_dsd then (0.25 : ℚ) else 6)) : ℤ) : ℚ) := by exact_mod_cast hsp
    rw [pyInt_eq_floor (by positivity)]
  · dsimp only
    unfold ETH_HEADER DIRETTA_HEADER FCS
    ring

/-- C4 counterexample: the claim quantifies over *every* positive mtu, but at
mtu = 21 (payload 1 byte, 8-byte alignment leaves 0) `samples_per_frame` is 0 and
the Python code raises `ZeroDivisionError` computing `packet_rate_hz` instead of
returning the claimed record. -/
theorem C4_counterexample_small_mtu_division_by_zero :
    calculate_frame_params 21 48000 true = none ∧
    calculate_frame_params 21 48000 false = none := by
  with_unfolding_all decide

/-- C4 witness: the formulas at the concrete default configuration
(mtu 9024, 48 kHz PCM base rate). -/
theorem C4_frame_parameter_formulas_witness :
    ∃ p : FrameParams, calculate_frame_params 9024 384000 false = some p ∧
      available_payload 9024 = 9024 - 20 ∧
      p.bytes_per_sample = (if false then (0.25 : ℚ) else 6) ∧
      p.samples_per_frame =
        ⌊((⌊((9024 - 20 : ℤ) : ℚ) / 8⌋ * 8 : ℤ) : ℚ) / (if false then (0.25 : ℚ) else 6)⌋ ∧
      p.audio_bytes = ⌊(p.samples_per_frame : ℚ) * (if false then (0.25 : ℚ) else 6)⌋ ∧
      p.cycle_time_us = (p.samples_per_frame : ℚ) / ((384000 : ℤ) : ℚ) * 1000000 ∧
      p.packet_rate_hz = ((384000 : ℤ) : ℚ) / (p.samples_per_frame : ℚ) ∧
      p.total_frame_size = 14 + 2 + p.audio_bytes + 4 :=
  C4_frame_parameter_formulas 9024 384000 (by decide) (by decide) false

/-- C5 counterexample: in PCM mode the claim's "rounded down to the largest
multiple of 8 bytes that fits" fails: at mtu = 36 the payload budget is 16, the
largest fitting multiple of 8 is 16, but `audio_bytes = 12` — not a multiple of 8
and not equal to that largest multiple. -/
theorem C5_counterexample_pcm_not_8_aligned :
    (calculate_frame_params 36 48000 false).map FrameParams.audio_bytes = some 12 ∧
    (12 : ℤ) % 8 ≠ 0 ∧
    8 * (((36 : ℤ) - 20) / 8) = 16 ∧
    (12 : ℤ) ≠ 16 := by
  with_unfolding_all decide

/-- C5 (amended): for every mtu of at least 28 and positive sample rate,
`audio_bytes` is nonnegative, never exceeds the largest multiple of 8 fitting in
the payload budget `mtu - 20` (hence never the budget itself), and in DSD mode it
equals that largest multiple exactly; in PCM mode it is `6·⌊aligned payload / 6⌋`,
which can fall short of the aligned budget. -/
theorem C5_audio_bytes_bounds (mtu sample_rate : ℤ) (hm : 28 ≤ mtu)
    (hs : 0 < sample_rate) (is_dsd : Bool) :
    ∃ p : FrameParams, calculate_frame_params mtu sample_rate is_dsd = some p ∧
      0 ≤ p.audio_bytes ∧
      p.audio_bytes ≤ 8 * ((mtu - 20) / 8) ∧
      p.audio_bytes ≤ mtu - 20 ∧
      (is_dsd = true → p.audio_bytes = 8 * ((mtu - 20) / 8)) := by
  obtain ⟨p, hp, -, -, hspf, hab, -, -, -⟩ :=
    C4_frame_parameter_formulas mtu sample_rate hm hs is_dsd
  have hA : (8 : ℤ) ≤ mtu - 20 := by omega
  have hAq : (8 : ℚ) ≤ ((mtu - 20 : ℤ) : ℚ) := by exact_mod_cast hA
  have hbps0 : (0 : ℚ) < (if is_dsd then (0.25 : ℚ) else 6) := by
    cases is_dsd <;> norm_num
  set B : ℚ := if is_dsd then (0.25 : ℚ) else 6 with hB
  set F : ℤ := ⌊((mtu - 20 : ℤ) : ℚ) / 8⌋ with hF
  have hF8 : F = (mtu - 20) / 8 := by
    rw [hF, show ((8 : ℚ)) = ((8 : ℕ) : ℚ) by norm_num,
      Rat.floor_intCast_div_natCast (mtu - 20) 8]
    norm_num
  have h1F : (1 : ℤ) ≤ F := by
    rw [hF, Int.le_floor, le_div_iff₀ (by norm_num : (0 : ℚ) < 8)]
    push_cast
    have h8 : (8 : ℚ) ≤ (mtu : ℚ) - 20 := by exact_mod_cast hA
    linarith
  have habm_le : (F * 8 : ℚ) ≤ ((mtu - 20 : ℤ) : ℚ) := by
    have hfl : (F : ℚ) ≤ ((mtu - 20 : ℤ) : ℚ) / 8 := by
      rw [hF]
      exact Int.floor_le _
    calc (F * 8 : ℚ) = ((F : ℚ)) * 8 := by ring
    _ ≤ (((mtu - 20 : ℤ) : ℚ) / 8) * 8 := by linarith
    _ = ((mtu - 20 : ℤ) : ℚ) := by field_simp
  have hspf_le : (p.samples_per_frame : ℚ) ≤ ((F * 8 : ℤ) : ℚ) / B := by
    rw [hspf]
    exact Int.floor_le _
  have hspf_pos : (1 : ℤ) ≤ p.samples_per_frame := by
    rw [hspf, Int.le_floor]
    have h8F : (8 : ℚ) ≤ ((F * 8 : ℤ) : ℚ) := by
      have : (8 : ℤ) ≤ F * 8 := by omega
      exact_mod_cast this
    have hb6 : B ≤ 6 := by rw [hB]; cases is_dsd <;> norm_num
    rw [show ((1 : ℤ) : ℚ) = 1 from rfl, one_le_div hbps0]
    linarith
  have hab_le_abm : p.audio_bytes ≤ F * 8 := by
    have hmul : (p.samples_per_frame : ℚ) * B ≤ ((F * 8 : ℤ) : ℚ) := by
      have := mul_le_mul_of_nonneg_right hspf_le (le_of_lt hbps0)
      rwa [div_mul_cancel₀ _ (ne_of_gt hbps0)] at this
    calc p.audio_bytes = ⌊(p.samples_per_frame : ℚ) * B⌋ := hab
    _ ≤ ⌊((F * 8 : ℤ) : ℚ)⌋ := Int.floor_le_floor hmul
    _ = F * 8 := Int.floor_intCast _
  refine ⟨p, hp, ?_, ?_, ?_, ?_⟩
  · rw [hab]
    have : (0 : ℚ) ≤ (p.samples_per_frame : ℚ) * B := by
      have h0 : (0 : ℚ) ≤ (p.samples_per_frame : ℚ) := by exact_mod_cast by omega
      positivity
    exact Int.le_floor.2 (by exact_mod_cast this)
  · omega
  · have : (F * 8 : ℤ) ≤ mtu - 20 := by exact_mod_cast habm_le
    omega
  · intro hdsd
    have hB25 : B = 0.25 := by rw [hB, hdsd, if_pos rfl]
    have hspf_eq : p.samples_per_frame = F * 32 := by
      rw [hspf, hB25, show ((F * 8 : ℤ) : ℚ) / 0.25 = ((F * 32 : ℤ) : ℚ) by
        push_cast; ring, Int.floor_intCast]
    have : p.audio_bytes = F * 8 := by
      rw [hab, hspf_eq, hB25, show ((F * 32 : ℤ) : ℚ) * 0.25 = ((F * 8 : ℤ) : ℚ) by
        push_cast; ring, Int.floor_intCast]
    omega

/-- C5 witness: the bounds at the concrete default DSD configuration. -/
theorem C5_audio_bytes_bounds_witness :
    ∃ p : FrameParams, calculate_frame_params 9024 12288000 true = some p ∧
      0 ≤ p.audio_bytes ∧
      p.audio_bytes ≤ 8 * (((9024 : ℤ) - 20) / 8) ∧
      p.audio_bytes ≤ 9024 - 20 ∧
      (true = true → p.audio_bytes = 8 * (((9024 : ℤ) - 20) / 8)) :=
  C5_audio_bytes_bounds 9024 12288000 (by decide) (by decide) true

/-! ### Corrupted-line tolerance (C8)

The claim quantifies over log texts with one well-formed line and one line that
matches the outer marker but has a non-numeric token in the correction position.
The family is modelled by an arbitrary non-empty alphabetic token `t` spliced into
the correction field of an otherwise well-formed second line. -/

/-- A well-formed log line (the example from the source's docstring). -/
def goodChars : List Char := "info rcv 2 -0.0110 -0.0110  0.0019 cy=3185960450".toList

/-- The corrupted line up to (and including) the whitespace before the correction
field. -/
def corruptPreChars : List Char := "info rcv 2 -0.0110 -0.0110 ".toList

/-- The same prefix without its leading marker character. -/
def corruptTailChars : List Char := "nfo rcv 2 -0.0110 -0.0110 ".toList

/-- The rest of the corrupted line after the correction field. -/
def cySufChars : List Char := " cy=123".toList

/-- The two-line log text with the correction field of the second line replaced by
the token `t`. -/
def corruptedPairText (t : List Char) : String :=
  String.mk (goodChars ++ '\n' :: (corruptPreChars ++ (t ++ cySufChars)))

/-- The letter class standing for "a non-numeric token" in the corrupted field. -/
def isLetter (c : Char) : Bool := ('A' ≤ c && c ≤ 'Z') || ('a' ≤ c && c ≤ 'z')

theorem alpha_not_digit {c : Char} (h : isLetter c = true) : isDigitC c = false := by
  cases hd : isDigitC c
  · rfl
  · exfalso
    simp only [isDigitC, Bool.and_eq_true, decide_eq_true_eq] at hd
    simp only [isLetter, Bool.or_eq_true, Bool.and_eq_true, decide_eq_true_eq] at h
    obtain ⟨hd1, hd2⟩ := hd
    rcases h with ⟨h1, -⟩ | ⟨h1, -⟩
    · exact absurd (le_trans h1 hd2) (by decide)
    · exact absurd (le_trans h1 hd2) (by decide)

theorem alpha_not_ws {c : Char} (h : isLetter c = true) : isWS c = false := by
  cases hws : isWS c
  · rfl
  · exfalso
    simp only [isWS, Bool.or_eq_true, decide_eq_true_eq] at hws
    rcases hws with ((((h1 | h1) | h1) | h1) | h1) | h1 <;> subst h1 <;>
      exact absurd h (by decide)

theorem alpha_ne_plus {c : Char} (h : isLetter c = true) : c ≠ '+' := by
  rintro rfl
  exact absurd h (by decide)

theorem alpha_ne_minus {c : Char} (h : isLetter c = true) : c ≠ '-' := by
  rintro rfl
  exact absurd h (by decide)

/-- A decimal capture fails on a head character that is not a digit or sign. -/
theorem pDecimal_none_of_head {c : Char} (x : List Char) (hd : isDigitC c = false)
    (hp : c ≠ '+') (hm : c ≠ '-') : pDecimal (c :: x) = none := by
  simp [pDecimal, pSign, if_neg hp, if_neg hm, digits1, List.takeWhile, hd]

theorem matchFrom3rd_none {d1 d2 : ℚ} {s : List Char} (h : pDecimal s = none) :
    matchFrom3rd d1 d2 s = none := by
  simp [matchFrom3rd, h]

/-- A match can only start at the marker's first character. -/
theorem matchAt_none_of_head {c : Char} (s : List Char) (h : c ≠ 'i') :
    matchAt (c :: s) = none := by
  simp [matchAt, bind, Option.bind, infoTok, lit, Ne.symm h]

/-- Scanning skips any stretch not containing the marker's first character. -/
theorem scan_append_no_i {v : List Char} (x : List Char)
    (hv : ∀ c ∈ v, c ≠ 'i') : scan (v ++ x) = scan x := by
  induction v with
  | nil => rfl
  | cons c v ih =>
    rw [List.cons_append, scan_cons_none (matchAt_none_of_head _ (hv c (by simp)))]
    exact ih (fun d hd => hv d (by simp [hd]))

/-- No match starts inside the alphabetic token: even if the token ends in the
letters `info`, the required whitespace-then-`rcv` cannot follow. -/
theorem matchAt_alpha_cySuf_none :
    ∀ u : List Char, (∀ c ∈ u, isLetter c = true) →
      matchAt (u ++ cySufChars) = none := by
  intro u hu
  rcases u with - | ⟨a, u1⟩
  · exact matchAt_none_of_head _ (by decide)
  by_cases ha : a = 'i'
  case neg => exact matchAt_none_of_head _ ha
  subst ha
  rcases u1 with - | ⟨b, u2⟩
  · decide
  by_cases hb : b = 'n'
  case neg => simp [matchAt, bind, Option.bind, infoTok, lit, Ne.symm hb]
  subst hb
  rcases u2 with - | ⟨c, u3⟩
  · decide
  by_cases hc : c = 'f'
  case neg => simp [matchAt, bind, Option.bind, infoTok, lit, Ne.symm hc]
  subst hc
  rcases u3 with - | ⟨d, u4⟩
  · decide
  by_cases hd : d = 'o'
  case neg => simp [matchAt, bind, Option.bind, infoTok, lit, Ne.symm hd]
  subst hd
  rcases u4 with - | ⟨e, u5⟩
  · decide
  have he : isWS e = false := alpha_not_ws (hu e (by simp))
  simp [matchAt, bind, Option.bind, infoTok, lit, ws1, he]

/-- Scanning an alphabetic token followed by the tail of the corrupted line finds
nothing. -/
theorem scan_alpha_cySuf_nil :
    ∀ u : List Char, (∀ c ∈ u, isLetter c = true) → scan (u ++ cySufChars) = [] := by
  intro u
  induction u with
  | nil =>
    intro _
    decide
  | cons c v ih =>
    intro hu
    have hm := matchAt_alpha_cySuf_none (c :: v) hu
    rw [List.cons_append] at hm
    rw [List.cons_append, scan_cons_none hm]
    exact ih (fun d hd => hu d (by simp [hd]))

/-- The well-formed line matches in full, leaving exactly the text after its final
digit run. -/
theorem matchAt_goodChars (rest : List Char) :
    ∃ m, matchAt (goodChars ++ '\n' :: rest) = some (m, '\n' :: rest) :=
  ⟨_, rfl⟩

/-- Matching at the corrupted line's start runs the pattern up to the correction
field; what remains is the tail stage applied past the consumed whitespace. -/
theorem matchAt_corruptPre (x : List Char) :
    ∃ a b : ℚ, matchAt (corruptPreChars ++ x) = matchFrom3rd a b (x.dropWhile isWS) :=
  ⟨_, _, rfl⟩

/-- C8: for every non-empty alphabetic token in the correction position of the
second line, the two-line text of `corruptedPairText` — one well-formed line and
one line matching the outer marker but failing numeric capture — parses to exactly
one sample in each of the four sequences: the corrupted line is skipped as if it
never matched, and (the model being total) no exception is involved. -/
theorem C8_corrupted_line_skipped (t : List Char) (ht : t ≠ [])
    (halpha : ∀ c ∈ t, isLetter c = true) :
    (parse_diretta_logs (corruptedPairText t)).buffer_diff.length = 1 ∧
    (parse_diretta_logs (corruptedPairText t)).buffer_avg.length = 1 ∧
    (parse_diretta_logs (corruptedPairText t)).correction.length = 1 ∧
    (parse_diretta_logs (corruptedPairText t)).cycle_times.length = 1 := by
  obtain ⟨c, t', rfl⟩ : ∃ c t', t = c :: t' := by
    cases t with
    | nil => exact absurd rfl ht
    | cons c t' => exact ⟨c, t', rfl⟩
  have hca : isLetter c = true := halpha c (by simp)
  have hx : ((c :: t') ++ cySufChars).dropWhile isWS = (c :: t') ++ cySufChars := by
    simp [List.dropWhile, alpha_not_ws hca]
  obtain ⟨a, b, hab⟩ := matchAt_corruptPre ((c :: t') ++ cySufChars)
  have hpd : pDecimal ((c :: t') ++ cySufChars) = none := by
    have := pDecimal_none_of_head (t' ++ cySufChars) (alpha_not_digit hca)
      (alpha_ne_plus hca) (alpha_ne_minus hca)
    simpa using this
  have hcorrupt : matchAt (corruptPreChars ++ ((c :: t') ++ cySufChars)) = none := by
    rw [hab, hx]
    exact matchFrom3rd_none hpd
  obtain ⟨m, hgood⟩ :=
    matchAt_goodChars (corruptPreChars ++ ((c :: t') ++ cySufChars))
  have hscan : scan (goodChars ++ '\n' ::
      (corruptPreChars ++ ((c :: t') ++ cySufChars))) = [m] := by
    have h1 : scan (goodChars ++ '\n' ::
        (corruptPreChars ++ ((c :: t') ++ cySufChars))) =
        m :: scan ('\n' :: (corruptPreChars ++ ((c :: t') ++ cySufChars))) :=
      scan_cons_some hgood
    have h2 : scan ('\n' :: (corruptPreChars ++ ((c :: t') ++ cySufChars))) =
        scan (corruptPreChars ++ ((c :: t') ++ cySufChars)) :=
      scan_cons_none (matchAt_none_of_head _ (by decide))
    have h3 : scan (corruptPreChars ++ ((c :: t') ++ cySufChars)) =
        scan (corruptTailChars ++ ((c :: t') ++ cySufChars)) :=
      scan_cons_none hcorrupt
    have h4 : scan (corruptTailChars ++ ((c :: t') ++ cySufChars)) =
        scan ((c :: t') ++ cySufChars) :=
      scan_append_no_i _ (by decide)
    have h5 : scan ((c :: t') ++ cySufChars) = [] :=
      scan_alpha_cySuf_nil _ halpha
    rw [h1, h2, h3, h4, h5]
  have hp : scan ((corruptedPairText (c :: t')).data) = [m] := hscan
  simp [parse_diretta_logs, String.toList, hp]

/-- C8 witness: the family at the concrete token "abc". -/
theorem C8_corrupted_line_skipped_witness :
    (parse_diretta_logs (corruptedPairText ['a', 'b', 'c'])).buffer_diff.length = 1 ∧
    (parse_diretta_logs (corruptedPairText ['a', 'b', 'c'])).buffer_avg.length = 1 ∧
    (parse_diretta_logs (corruptedPairText ['a', 'b', 'c'])).correction.length = 1 ∧
    (parse_diretta_logs (corruptedPairText ['a', 'b', 'c'])).cycle_times.length = 1 :=
  C8_corrupted_line_skipped ['a', 'b', 'c'] (by decide) (by decide)

end Diretta
